import Mathlib

/-!
# SimpleWeatherService: decoder and freshness-gated store

A shallow embedding of `src/components/ble/SimpleWeatherService.cpp`.

* A `uint8_t` is a `Byte` (a natural number below 256).
* The pointer `dataBuffer` (the `om_data` of the received mbuf) is the list of the
  bytes it points at; reading `dataBuffer[i]` with `i` at or past the end of the
  list is an out-of-bounds read and yields `none`, which then propagates.
* `int` is 32 bits wide, `int16_t`, `int64_t` and `uint64_t` are modelled by `Int`
  and `Nat` with explicit wrapping at every conversion.
-/

namespace Pinetime.Controllers

/-- A value of type `uint8_t`. -/
abbrev Byte := Fin 256

/-- The read `data[i]` through a `const uint8_t*` that points at `data.length`
bytes. The result `none` is a read at an index at or beyond the length. -/
def readByte (data : List Byte) (i : Nat) : Option Byte := data[i]?

/-- Conversion of an integer to `int` (32 bits, two's complement, modular). -/
def wrapInt32 (x : Int) : Int := (x + 2 ^ 31) % 2 ^ 32 - 2 ^ 31

/-- Conversion of an integer to `int16_t` (two's complement, modular). -/
def wrapInt16 (x : Int) : Int := (x + 2 ^ 15) % 2 ^ 16 - 2 ^ 15

/-- Conversion of an integer to `int64_t` (two's complement, modular). -/
def wrapInt64 (x : Int) : Int := (x + 2 ^ 63) % 2 ^ 64 - 2 ^ 63

/-- Conversion of an integer to `uint64_t` (modular). -/
def wrapUInt64 (x : Int) : Nat := (x % 2 ^ 64).toNat

/-- The expression `b << k` on a `uint8_t` operand: the operand is promoted to
`int` and the shifted value is reduced to the range of `int`. -/
def shlInt (b : Byte) (k : Nat) : Int := wrapInt32 ((b.val : Int) * 2 ^ k)

/-- The expression `static_cast<uint64_t>(b) << k`. -/
def shlUInt64 (b : Byte) (k : Nat) : Nat := (b.val * 2 ^ k) % 2 ^ 64

/-- Addition of two `int` values. -/
def addInt (a b : Int) : Int := wrapInt32 (a + b)

/-- Addition of two `uint64_t` values. -/
def addUInt64 (a b : Nat) : Nat := (a + b) % 2 ^ 64

/-- The arithmetic of `ToUInt64` on the eight bytes read: the first four terms are
added as `int`, that sum is converted to `uint64_t` when the first `uint64_t` term
is added, and the remaining additions are `uint64_t` additions. -/
def ToUInt64.combine (d0 d1 d2 d3 d4 d5 d6 d7 : Byte) : Nat :=
  let low : Int :=
    addInt (addInt (addInt (d0.val : Int) (shlInt d1 8)) (shlInt d2 16)) (shlInt d3 24)
  addUInt64 (addUInt64 (addUInt64 (addUInt64 (wrapUInt64 low) (shlUInt64 d4 32))
    (shlUInt64 d5 40)) (shlUInt64 d6 48)) (shlUInt64 d7 56)

/-- The function `ToUInt64(&dataBuffer[off])`. -/
def ToUInt64 (dataBuffer : List Byte) (off : Nat) : Option Nat := do
  let d0 ← readByte dataBuffer (off + 0)
  let d1 ← readByte dataBuffer (off + 1)
  let d2 ← readByte dataBuffer (off + 2)
  let d3 ← readByte dataBuffer (off + 3)
  let d4 ← readByte dataBuffer (off + 4)
  let d5 ← readByte dataBuffer (off + 5)
  let d6 ← readByte dataBuffer (off + 6)
  let d7 ← readByte dataBuffer (off + 7)
  pure (ToUInt64.combine d0 d1 d2 d3 d4 d5 d6 d7)

/-- The arithmetic of `ToInt16`: an `int` sum converted to the `int16_t` result. -/
def ToInt16.combine (d0 d1 : Byte) : Int :=
  wrapInt16 (addInt (d0.val : Int) (shlInt d1 8))

/-- The function `ToInt16(&dataBuffer[off])`. -/
def ToInt16 (dataBuffer : List Byte) (off : Nat) : Option Int := do
  let d0 ← readByte dataBuffer (off + 0)
  let d1 ← readByte dataBuffer (off + 1)
  pure (ToInt16.combine d0 d1)

/-- Modelled from the spec: the enumeration `SimpleWeatherService::Icons` is
declared in `components/ble/SimpleWeatherService.h`, which is not among the
sources. The spec describes it as a small set of known codes and a distinguished
`Unknown`. An `Icons` value is represented by its underlying code; the
initialisation `Icons {b}` from a `uint8_t` keeps the value of `b`. -/
abbrev Icons := Byte

/-- Modelled from the spec: the type `SimpleWeatherService::Location` is declared
in the absent header; the spec gives it as a buffer of capacity 33 (32 payload
bytes and a terminator). It is the list of its `char` elements. -/
abbrev Location := List Byte

/-- Modelled from the spec: the constant `SimpleWeatherService::MaxNbForecastDays`
is declared in the absent header; the spec gives 5, and the logging loop of
`OnCommand` indexes `days[0]` to `days[4]`. -/
abbrev MaxNbForecastDays : Nat := 5

/-- The record `SimpleWeatherService::CurrentWeather`; the constructor takes its
arguments in the order of the fields below. -/
structure CurrentWeather where
  timestamp : Nat
  temperature : Int
  minTemperature : Int
  maxTemperature : Int
  iconId : Icons
  location : Location
deriving DecidableEq, Repr

/-- The record `SimpleWeatherService::Forecast::Day`. -/
structure Day where
  minTemperature : Int
  maxTemperature : Int
  iconId : Icons
deriving DecidableEq, Repr

/-- The array `std::array<Forecast::Day, MaxNbForecastDays>`. -/
abbrev Days := Fin MaxNbForecastDays → Day

/-- The record `SimpleWeatherService::Forecast`. -/
structure Forecast where
  timestamp : Nat
  nbDays : Nat
  days : Days

/-- The bytes `data[off]`, ..., `data[off + n - 1]`, read one after the other as
`std::memcpy(dst, &data[off], n)` does. -/
def readBytes (data : List Byte) (off : Nat) : Nat → Option (List Byte)
  | 0 => some []
  | n + 1 => do
    let b ← readByte data off
    let rest ← readBytes data (off + 1) n
    pure (b :: rest)

/-- The function `CreateCurrentWeather`. The local `cityName` receives the 32 bytes
copied by `memcpy` and then the terminator at index 32. -/
def CreateCurrentWeather (dataBuffer : List Byte) : Option CurrentWeather := do
  let copied ← readBytes dataBuffer 16 32
  let cityName : Location := copied ++ [0]
  let timestamp ← ToUInt64 dataBuffer 2
  let temperature ← ToInt16 dataBuffer 10
  let minTemperature ← ToInt16 dataBuffer 12
  let maxTemperature ← ToInt16 dataBuffer 14
  let iconId ← readByte dataBuffer (16 + 32)
  pure ⟨timestamp, temperature, minTemperature, maxTemperature, iconId, cityName⟩

/-- The assignment `days[i] = d`; an index outside the array is `none`. -/
def writeDay (days : Days) (i : Nat) (d : Day) : Option Days :=
  if h : i < MaxNbForecastDays then some (Function.update days ⟨i, h⟩ d) else none

/-- The loop `for (int i = 0; i < nbDays; i++)` of `CreateForecast`, started at
index `i` with `remaining = nbDays - i` iterations left. -/
def CreateForecast.loop (dataBuffer : List Byte) : Nat → Nat → Days → Option Days
  | 0, _, days => some days
  | remaining + 1, i, days => do
    let minTemperature ← ToInt16 dataBuffer (11 + i * 5)
    let maxTemperature ← ToInt16 dataBuffer (13 + i * 5)
    let iconId ← readByte dataBuffer (15 + i * 5)
    let days ← writeDay days i ⟨minTemperature, maxTemperature, iconId⟩
    CreateForecast.loop dataBuffer remaining (i + 1) days

/-- The function `CreateForecast`. The local array `days` is not initialised by the
code; `uninit` is the content it starts with. -/
def CreateForecast (uninit : Days) (dataBuffer : List Byte) : Option Forecast := do
  let timestamp ← ToUInt64 dataBuffer 2
  let nbDaysInBuffer ← readByte dataBuffer 10
  let nbDays : Nat := min MaxNbForecastDays nbDaysInBuffer.val
  let days ← CreateForecast.loop dataBuffer nbDays 0 uninit
  pure ⟨timestamp, nbDays, days⟩

/-- The enumeration `MessageType : uint8_t`, a value being its underlying code. -/
abbrev MessageType := Byte

/-- The enumerator `MessageType::CurrentWeather`. -/
abbrev MessageType.CurrentWeather : MessageType := 0

/-- The enumerator `MessageType::Forecast`. -/
abbrev MessageType.Forecast : MessageType := 1

/-- The enumerator `MessageType::Unknown`. -/
abbrev MessageType.Unknown : MessageType := 2

/-- The function `GetMessageType`. -/
def GetMessageType (data : List Byte) : Option MessageType := do
  let messageType ← readByte data 0
  if messageType > MessageType.Unknown then
    pure MessageType.Unknown
  else
    pure messageType

/-- The function `GetVersion`. -/
def GetVersion (dataBuffer : List Byte) : Option Byte := readByte dataBuffer 1

/-- The members `currentWeather` and `forecast` of the class
`SimpleWeatherService`, both `std::optional`. -/
structure SimpleWeatherService where
  currentWeather : Option CurrentWeather
  forecast : Option Forecast

/-- The method `SimpleWeatherService::OnCommand` on the bytes of `ctxt->om`: the
result is the returned `int` and the members after the call, or `none` when a byte
was read out of bounds. The `NRF_LOG_INFO` calls are diagnostics and are left out. -/
def SimpleWeatherService.OnCommand (self : SimpleWeatherService) (uninit : Days)
    (dataBuffer : List Byte) : Option (Int × SimpleWeatherService) := do
  let messageType ← GetMessageType dataBuffer
  if messageType = MessageType.CurrentWeather then
    let version ← GetVersion dataBuffer
    if version = 0 then
      let cw ← CreateCurrentWeather dataBuffer
      pure (0, { self with currentWeather := some cw })
    else
      pure (0, self)
  else if messageType = MessageType.Forecast then
    let version ← GetVersion dataBuffer
    if version = 0 then
      let fc ← CreateForecast uninit dataBuffer
      pure (0, { self with forecast := some fc })
    else
      pure (0, self)
  else
    pure (0, self)

/-- Modelled from the spec: the clock collaborator `Controllers::DateTime` is
declared in `components/datetime/DateTimeController.h`, which is not among the
sources. The spec says it exposes the current time as a value comparable with
seconds since the epoch. Here `CurrentDateTime().time_since_epoch()` is a signed
64-bit count `sinceEpoch` of ticks, `ticksPerSecond` of them to the second (1 for a
clock in seconds, 10^9 for one in nanoseconds). -/
structure DateTime where
  ticksPerSecond : Nat
  sinceEpoch : Int

/-- A signed 64-bit result: `none` when the exact value does not fit (signed
overflow, which the language leaves undefined). -/
def checkedInt64 (x : Int) : Option Int :=
  if -(2 ^ 63) ≤ x ∧ x < 2 ^ 63 then some x else none

/-- The freshness test shared by `Current` and `GetForecast`: the stored timestamp
becomes a `std::chrono::seconds` (signed 64-bit count), is converted to the
clock's unit for the subtraction, and the difference is compared with 24 hours in
that unit. -/
def isFresh (dateTimeController : DateTime) (timestamp : Nat) : Option Bool := do
  let currentTime := dateTimeController.sinceEpoch
  let weatherTpSecond := wrapInt64 timestamp
  let weatherTp ← checkedInt64 (weatherTpSecond * dateTimeController.ticksPerSecond)
  let delta ← checkedInt64 (currentTime - weatherTp)
  let limit ← checkedInt64 (24 * 3600 * dateTimeController.ticksPerSecond)
  pure (decide (delta < limit))

/-- The method `SimpleWeatherService::Current`. The outer `none` is undefined
behaviour (signed overflow), the inner option is the returned `std::optional`. -/
def SimpleWeatherService.Current (self : SimpleWeatherService)
    (dateTimeController : DateTime) : Option (Option CurrentWeather) :=
  match self.currentWeather with
  | some cw => do
    let fresh ← isFresh dateTimeController cw.timestamp
    if fresh then pure (some cw) else pure none
  | none => pure none

/-- The method `SimpleWeatherService::GetForecast`. -/
def SimpleWeatherService.GetForecast (self : SimpleWeatherService)
    (dateTimeController : DateTime) : Option (Option Forecast) :=
  match self.forecast with
  | some fc => do
    let fresh ← isFresh dateTimeController fc.timestamp
    if fresh then pure (some fc) else pure none
  | none => pure none

/-- The function `std::strcmp` on the contents of two `char` buffers: the bytes
are compared as `unsigned char` up to the first difference or the first terminator,
and the result is negative, zero or positive. The result `none` is a read past the
end of a buffer that holds no terminator. -/
def strcmp : List Byte → List Byte → Option Int
  | a :: as, b :: bs =>
    if a ≠ b then some (if a < b then -1 else 1)
    else if a = 0 then some 0
    else strcmp as bs
  | _, _ => none

/-- The operator `CurrentWeather::operator==`. The conjunction is evaluated from
the left and stops at the first false operand, so `strcmp` runs only when the five
comparisons before it hold. -/
def CurrentWeather.operatorEq (self other : CurrentWeather) : Option Bool :=
  if self.iconId = other.iconId ∧ self.temperature = other.temperature ∧
      self.timestamp = other.timestamp ∧ self.maxTemperature = other.maxTemperature ∧
      self.minTemperature = other.maxTemperature then do
    let c ← strcmp self.location other.location
    pure (decide (c = 0))
  else
    pure false

/-- The operator `Forecast::Day::operator==`. -/
def Day.operatorEq (self other : Day) : Bool :=
  decide (self.iconId = other.iconId) && decide (self.maxTemperature = other.maxTemperature) &&
    decide (self.minTemperature = other.maxTemperature)

/-- The read `days[i]`; an index outside the array is `none`. -/
def readDay (days : Days) (i : Nat) : Option Day :=
  if h : i < MaxNbForecastDays then some (days ⟨i, h⟩) else none

/-- The loop `for (int i = 0; i < this->nbDays; i++)` of `Forecast::operator==`,
started at index `i` with `remaining = nbDays - i` iterations left. The result is
`false` when the loop returns `false` from the function and `true` when the loop
runs to its end. -/
def Forecast.operatorEq.loop (self other : Forecast) : Nat → Nat → Option Bool
  | 0, _ => some true
  | remaining + 1, i => do
    let mine ← readDay self.days i
    let theirs ← readDay other.days i
    if !(Day.operatorEq mine theirs) then
      pure false
    else
      Forecast.operatorEq.loop self other remaining (i + 1)

/-- The operator `Forecast::operator==`. -/
def Forecast.operatorEq (self other : Forecast) : Option Bool := do
  let completed ← Forecast.operatorEq.loop self other self.nbDays 0
  if !completed then
    pure false
  else
    pure (decide (self.timestamp = other.timestamp) && decide (self.nbDays = other.nbDays))

/-! ## Vocabulary of the statements -/

/-- The byte at offset `i` of a buffer (0 past the end; the statements use it only
at offsets inside the buffer). -/
def byteAt (data : List Byte) (i : Nat) : Byte := data.getD i 0

/-- The signed 16-bit little-endian reading of a byte pair as the spec words it:
`lo + 256 * hi`, minus 65536 when that is at least 32768. -/
def specInt16LE (lo hi : Byte) : Int :=
  if 32768 ≤ lo.val + 256 * hi.val then ((lo.val + 256 * hi.val : Nat) : Int) - 65536
  else ((lo.val + 256 * hi.val : Nat) : Int)

/-- The unsigned 64-bit little-endian value of the eight bytes at offsets `off` to
`off + 7`, as the spec words it: the sum of `byte[off + j] * 256 ^ j`. -/
def specUInt64LE (data : List Byte) (off : Nat) : Nat :=
  ((List.range 8).map fun j => (byteAt data (off + j)).val * 256 ^ j).sum

/-- A valid version-0 CurrentWeather buffer: kind byte 0, version byte 0, and the
49 bytes of the wire layout present. -/
def ValidCurrentWeatherBuffer (data : List Byte) : Prop :=
  byteAt data 0 = 0 ∧ byteAt data 1 = 0 ∧ 49 ≤ data.length

/-- A valid version-0 Forecast buffer: kind byte 1, version byte 0, the day count
at offset 10 present, and the five bytes of every day the decoder keeps present. -/
def ValidForecastBuffer (data : List Byte) : Prop :=
  byteAt data 0 = 1 ∧ byteAt data 1 = 0 ∧ 11 ≤ data.length ∧
    11 + 5 * min MaxNbForecastDays (byteAt data 10).val ≤ data.length

instance (data : List Byte) : Decidable (ValidCurrentWeatherBuffer data) := by
  unfold ValidCurrentWeatherBuffer; infer_instance

instance (data : List Byte) : Decidable (ValidForecastBuffer data) := by
  unfold ValidForecastBuffer; infer_instance

/-- The day record that the wire layout places at index `i` of a Forecast buffer. -/
def dayAt (data : List Byte) (i : Nat) : Day :=
  ⟨ToInt16.combine (byteAt data (11 + i * 5)) (byteAt data (11 + i * 5 + 1)),
   ToInt16.combine (byteAt data (13 + i * 5)) (byteAt data (13 + i * 5 + 1)),
   byteAt data (15 + i * 5)⟩

/-- The terminated string held in a `char` buffer: the bytes before the first zero. -/
def cString (s : List Byte) : List Byte := s.takeWhile (fun c => c ≠ 0)

/-! ## Concrete buffers -/

/-- The 49-byte CurrentWeather message of the end-to-end scenario: timestamp
1700000000, temperatures 2750, 2000 and 3000, location "Paris", icon 1. -/
def parisBuffer : List Byte :=
  [0x00, 0x00, 0x00, 0xF1, 0x53, 0x65, 0x00, 0x00, 0x00, 0x00, 0xBE, 0x0A, 0xD0, 0x07,
   0xB8, 0x0B, 0x50, 0x61, 0x72, 0x69, 0x73] ++ List.replicate 27 0 ++ [0x01]

/-- The record that the end-to-end scenario expects from `parisBuffer`. -/
def parisWeather : CurrentWeather :=
  ⟨1700000000, 2750, 2000, 3000, 1, [0x50, 0x61, 0x72, 0x69, 0x73] ++ List.replicate 28 0⟩

/-- A 49-byte CurrentWeather message whose timestamp bytes 2..9 are
`00 00 00 80 00 00 00 00`, the little-endian encoding of 2147483648. -/
def year2038Buffer : List Byte :=
  [0x00, 0x00, 0x00, 0x00, 0x00, 0x80, 0x00, 0x00, 0x00, 0x00] ++ List.replicate 39 0

/-- A Forecast message with no day and the timestamp bytes of `year2038Buffer`. -/
def year2038Forecast : List Byte :=
  [0x01, 0x00, 0x00, 0x00, 0x00, 0x80, 0x00, 0x00, 0x00, 0x00, 0x00]

/-- An array of days with every entry zero. -/
def zeroDays : Days := fun _ => ⟨0, 0, 0⟩

/-- The store before any message arrives. -/
def emptyStore : SimpleWeatherService := ⟨none, none⟩

/-- A Forecast message that declares 200 days and carries the bytes of five:
day 0 is (1, 2, icon 3), day 1 is (-1, -32768, icon 9). -/
def oversizedForecast : List Byte :=
  [0x01, 0x00, 0x00, 0xF1, 0x53, 0x65, 0x00, 0x00, 0x00, 0x00, 200,
   0x01, 0x00, 0x02, 0x00, 0x03, 0xFF, 0xFF, 0x00, 0x80, 0x09,
   0x00, 0x00, 0x00, 0x00, 0x00, 0x01, 0x01, 0x01, 0x01, 0x01,
   0x02, 0x02, 0x02, 0x02, 0x02]

/-- A 49-byte CurrentWeather message whose timestamp bytes 2..9 are
`00 00 00 00 FF FF FF FF`, the little-endian encoding of 18446744069414584320. -/
def farFutureBuffer : List Byte :=
  [0x00, 0x00, 0x00, 0x00, 0x00, 0x00, 0xFF, 0xFF, 0xFF, 0xFF] ++ List.replicate 39 0

/-- The record decoded from `farFutureBuffer`. -/
def farFutureWeather : CurrentWeather :=
  ⟨18446744069414584320, 0, 0, 0, 0, List.replicate 33 0⟩

/-- A 49-byte CurrentWeather message that is zero except for its icon byte `b`. -/
def iconBuffer (b : Byte) : List Byte := [0x00, 0x00] ++ List.replicate 46 0 ++ [b]

/-- A 49-byte CurrentWeather message whose 32 location bytes are all `A`, none of
them zero. -/
def unterminatedBuffer : List Byte :=
  [0x00, 0x00] ++ List.replicate 14 0 ++ List.replicate 32 0x41 ++ [0x01]

/-- A forecast record with two populated days; every entry has equal minimum and
maximum temperature. -/
def twoDayForecast : Forecast := ⟨1700000000, 2, fun _ => ⟨3000, 3000, 1⟩⟩

/-- A forecast record with one populated day and the timestamp and entries of
`twoDayForecast`. -/
def oneDayForecast : Forecast := ⟨1700000000, 1, fun _ => ⟨3000, 3000, 1⟩⟩

/-! ## Reads -/

theorem readByte_of_lt (data : List Byte) (i : Nat) (h : i < data.length) :
    readByte data i = some (byteAt data i) := by
  simp [readByte, byteAt, List.getD, List.getElem?_eq_getElem h]

theorem readByte_of_le (data : List Byte) (i : Nat) (h : data.length ≤ i) :
    readByte data i = none := by
  simp [readByte, h]

theorem ToInt16_of_lt (data : List Byte) (off : Nat) (h : off + 1 < data.length) :
    ToInt16 data off = some (ToInt16.combine (byteAt data off) (byteAt data (off + 1))) := by
  simp [ToInt16, readByte_of_lt data off (by omega), readByte_of_lt data (off + 1) h]

theorem ToUInt64_of_le (data : List Byte) (off : Nat) (h : off + 8 ≤ data.length) :
    ToUInt64 data off = some (ToUInt64.combine (byteAt data off) (byteAt data (off + 1))
      (byteAt data (off + 2)) (byteAt data (off + 3)) (byteAt data (off + 4))
      (byteAt data (off + 5)) (byteAt data (off + 6)) (byteAt data (off + 7))) := by
  simp [ToUInt64, readByte_of_lt data off (by omega), readByte_of_lt data (off + 1) (by omega),
    readByte_of_lt data (off + 2) (by omega), readByte_of_lt data (off + 3) (by omega),
    readByte_of_lt data (off + 4) (by omega), readByte_of_lt data (off + 5) (by omega),
    readByte_of_lt data (off + 6) (by omega), readByte_of_lt data (off + 7) (by omega)]

theorem readBytes_of_le (data : List Byte) (n : Nat) :
    ∀ off, off + n ≤ data.length → readBytes data off n = some ((data.drop off).take n) := by
  induction n with
  | zero => intro off _; simp [readBytes]
  | succ n ih =>
    intro off h
    have hlt : off < data.length := by omega
    have hd : data.drop off = byteAt data off :: data.drop (off + 1) := by
      rw [List.drop_eq_getElem_cons hlt]
      simp [byteAt, List.getD, List.getElem?_eq_getElem hlt]
    simp [readBytes, readByte_of_lt data off hlt, ih (off + 1) (by omega), hd]

/-! ## Arithmetic of the two converters -/

theorem ToInt16_combine_eq (d0 d1 : Byte) : ToInt16.combine d0 d1 = specInt16LE d0 d1 := by
  have h0 := d0.isLt
  have h1 := d1.isLt
  simp only [ToInt16.combine, specInt16LE, wrapInt16, addInt, shlInt, wrapInt32]
  split <;> omega

theorem ToUInt64_low_eq (d0 d1 d2 d3 : Byte) :
    addInt (addInt (addInt (d0.val : Int) (shlInt d1 8)) (shlInt d2 16)) (shlInt d3 24)
      = (d0.val : Int) + d1.val * 256 + d2.val * 65536 + d3.val * 16777216
        - (if 128 ≤ d3.val then 4294967296 else 0) := by
  have h0 := d0.isLt
  have h1 := d1.isLt
  have h2 := d2.isLt
  have h3 := d3.isLt
  simp only [addInt, shlInt, wrapInt32]
  norm_num
  split <;> omega

theorem ToUInt64_combine_eq (d0 d1 d2 d3 d4 d5 d6 d7 : Byte) :
    ToUInt64.combine d0 d1 d2 d3 d4 d5 d6 d7 =
      (d0.val + d1.val * 256 + d2.val * 65536 + d3.val * 16777216 + d4.val * 4294967296
        + d5.val * 1099511627776 + d6.val * 281474976710656 + d7.val * 72057594037927936
        + (if 128 ≤ d3.val then 18446744069414584320 else 0)) % 18446744073709551616 := by
  have h0 := d0.isLt
  have h1 := d1.isLt
  have h2 := d2.isLt
  have h3 := d3.isLt
  have h4 := d4.isLt
  have h5 := d5.isLt
  have h6 := d6.isLt
  have h7 := d7.isLt
  simp only [ToUInt64.combine, ToUInt64_low_eq, wrapUInt64, addUInt64, shlUInt64]
  norm_num
  split <;> omega


theorem specUInt64LE_eq (data : List Byte) (off : Nat) :
    specUInt64LE data off =
      (byteAt data off).val + (byteAt data (off + 1)).val * 256
        + (byteAt data (off + 2)).val * 65536 + (byteAt data (off + 3)).val * 16777216
        + (byteAt data (off + 4)).val * 4294967296 + (byteAt data (off + 5)).val * 1099511627776
        + (byteAt data (off + 6)).val * 281474976710656
        + (byteAt data (off + 7)).val * 72057594037927936 := by
  have hr : List.range 8 = [0, 1, 2, 3, 4, 5, 6, 7] := by decide
  simp only [specUInt64LE, hr, List.map_cons, List.map_nil, List.sum_cons, List.sum_nil]
  norm_num
  omega

/-! ## The decoders on buffers that are long enough -/


theorem CreateCurrentWeather_of_le (data : List Byte) (h : 49 ≤ data.length) :
    CreateCurrentWeather data = some
      ⟨ToUInt64.combine (byteAt data 2) (byteAt data 3) (byteAt data 4) (byteAt data 5)
          (byteAt data 6) (byteAt data 7) (byteAt data 8) (byteAt data 9),
        ToInt16.combine (byteAt data 10) (byteAt data 11),
        ToInt16.combine (byteAt data 12) (byteAt data 13),
        ToInt16.combine (byteAt data 14) (byteAt data 15),
        byteAt data 48,
        (data.drop 16).take 32 ++ [0]⟩ := by
  simp only [CreateCurrentWeather, readBytes_of_le data 32 16 (by omega),
    ToUInt64_of_le data 2 (by omega), ToInt16_of_lt data 10 (by omega),
    ToInt16_of_lt data 12 (by omega), ToInt16_of_lt data 14 (by omega),
    readByte_of_lt data (16 + 32) (by omega), Option.bind_eq_bind, Option.some_bind,
    Option.pure_def]

theorem CreateForecast_loop_of_le (data : List Byte) (n : Nat) :
    ∀ (i : Nat) (days : Days), i + n ≤ MaxNbForecastDays → 11 + 5 * (i + n) ≤ data.length →
      CreateForecast.loop data n i days =
        some (fun j => if i ≤ j.val ∧ j.val < i + n then dayAt data j.val else days j) := by
  induction n with
  | zero =>
    intro i days _ _
    simp only [CreateForecast.loop]
    congr 1
    funext j
    rw [if_neg (by omega)]
  | succ n ih =>
    intro i days hi hlen
    have hw : writeDay days i (dayAt data i) =
        some (Function.update days ⟨i, by omega⟩ (dayAt data i)) := by
      simp only [writeDay]
      rw [dif_pos (by omega)]
    simp only [CreateForecast.loop, ToInt16_of_lt data (11 + i * 5) (by omega),
      ToInt16_of_lt data (13 + i * 5) (by omega), readByte_of_lt data (15 + i * 5) (by omega),
      Option.bind_eq_bind, Option.some_bind]
    change (writeDay days i (dayAt data i)).bind _ = _
    rw [hw, Option.some_bind, ih (i + 1) _ (by omega) (by omega)]
    congr 1
    funext j
    by_cases hj : j = ⟨i, by omega⟩
    · subst hj
      simp
    · have hne : j.val ≠ i := fun h => hj (Fin.ext h)
      rw [Function.update_noteq hj]
      by_cases hc : i + 1 ≤ j.val ∧ j.val < i + 1 + n
      · rw [if_pos hc, if_pos (by omega)]
      · rw [if_neg hc, if_neg (by omega)]

theorem CreateForecast_of_le (uninit : Days) (data : List Byte) (h11 : 11 ≤ data.length)
    (h : 11 + 5 * min MaxNbForecastDays (byteAt data 10).val ≤ data.length) :
    CreateForecast uninit data = some
      ⟨ToUInt64.combine (byteAt data 2) (byteAt data 3) (byteAt data 4) (byteAt data 5)
          (byteAt data 6) (byteAt data 7) (byteAt data 8) (byteAt data 9),
        min MaxNbForecastDays (byteAt data 10).val,
        fun j => if j.val < min MaxNbForecastDays (byteAt data 10).val then dayAt data j.val
          else uninit j⟩ := by
  have hl := CreateForecast_loop_of_le data (min MaxNbForecastDays (byteAt data 10).val) 0 uninit
    (by simp) (by simpa using h)
  simp only [CreateForecast, ToUInt64_of_le data 2 (by omega), readByte_of_lt data 10 (by omega),
    Option.bind_eq_bind, Option.some_bind, Option.pure_def, hl]
  simp

theorem OnCommand_cons (self : SimpleWeatherService) (uninit : Days) (kind version : Byte)
    (rest : List Byte) :
    SimpleWeatherService.OnCommand self uninit (kind :: version :: rest) =
      if kind = 0 ∧ version = 0 then
        (CreateCurrentWeather (kind :: version :: rest)).bind fun cw =>
          some (0, { self with currentWeather := some cw })
      else if kind = 1 ∧ version = 0 then
        (CreateForecast uninit (kind :: version :: rest)).bind fun fc =>
          some (0, { self with forecast := some fc })
      else some (0, self) := by
  have e20 : (2 : Byte) ≠ 0 := by decide
  have e21 : (2 : Byte) ≠ 1 := by decide
  have e10 : (1 : Byte) ≠ 0 := by decide
  have l02 : ¬ (0 : Byte) > 2 := by decide
  have l12 : ¬ (1 : Byte) > 2 := by decide
  simp only [SimpleWeatherService.OnCommand, GetMessageType, GetVersion, readByte,
    MessageType.Unknown, MessageType.CurrentWeather, MessageType.Forecast,
    List.getElem?_cons_zero, List.getElem?_cons_succ, Option.bind_eq_bind, Option.some_bind,
    Option.pure_def]
  by_cases h2 : kind > 2
  · have k0 : kind ≠ 0 := by rintro rfl; exact l02 h2
    have k1 : kind ≠ 1 := by rintro rfl; exact l12 h2
    simp only [h2, if_true, Option.some_bind, e20, e21, if_false, k0, k1, false_and]
  · by_cases k0 : kind = 0
    · subst k0
      by_cases hv : version = 0
      · simp only [l02, if_false, Option.some_bind, if_true, hv, true_and, and_self]
      · simp only [l02, if_false, Option.some_bind, if_true, hv, and_false, e10.symm, false_and]
    · by_cases k1 : kind = 1
      · subst k1
        by_cases hv : version = 0
        · simp only [l12, if_false, Option.some_bind, if_true, hv, e10, false_and, and_self]
        · simp only [l12, if_false, Option.some_bind, if_true, hv, and_false, e10]
      · simp only [h2, if_false, Option.some_bind, k0, k1, false_and]

/-! ## OnCommand on valid buffers -/


theorem OnCommand_of_header (self : SimpleWeatherService) (uninit : Days) (data : List Byte)
    (h2 : 2 ≤ data.length) :
    SimpleWeatherService.OnCommand self uninit data =
      if byteAt data 0 = 0 ∧ byteAt data 1 = 0 then
        (CreateCurrentWeather data).bind fun cw =>
          some (0, { self with currentWeather := some cw })
      else if byteAt data 0 = 1 ∧ byteAt data 1 = 0 then
        (CreateForecast uninit data).bind fun fc =>
          some (0, { self with forecast := some fc })
      else some (0, self) := by
  match data, h2 with
  | kind :: version :: rest, _ => exact OnCommand_cons self uninit kind version rest

theorem OnCommand_of_validCurrentWeather (self : SimpleWeatherService) (uninit : Days)
    (data : List Byte) (h : ValidCurrentWeatherBuffer data) :
    ∃ cw, CreateCurrentWeather data = some cw ∧
      SimpleWeatherService.OnCommand self uninit data =
        some (0, { self with currentWeather := some cw }) := by
  refine ⟨_, CreateCurrentWeather_of_le data h.2.2, ?_⟩
  rw [OnCommand_of_header self uninit data (by have := h.2.2; omega), if_pos ⟨h.1, h.2.1⟩,
    CreateCurrentWeather_of_le data h.2.2, Option.some_bind]

theorem OnCommand_of_validForecast (self : SimpleWeatherService) (uninit : Days)
    (data : List Byte) (h : ValidForecastBuffer data) :
    ∃ fc, CreateForecast uninit data = some fc ∧
      SimpleWeatherService.OnCommand self uninit data =
        some (0, { self with forecast := some fc }) := by
  have e10 : ¬ ((1 : Byte) = 0) := by decide
  refine ⟨_, CreateForecast_of_le uninit data h.2.2.1 h.2.2.2, ?_⟩
  rw [OnCommand_of_header self uninit data (by have := h.2.2.1; omega),
    if_neg (by rw [h.1]; exact fun hc => e10 hc.1), if_pos ⟨h.1, h.2.1⟩,
    CreateForecast_of_le uninit data h.2.2.1 h.2.2.2, Option.some_bind]

/-! ## The decoders on buffers that are too short -/

theorem CreateCurrentWeather_of_short (data : List Byte) (h : data.length < 49) :
    CreateCurrentWeather data = none := by
  have h48 : readByte data (16 + 32) = none := readByte_of_le data _ (by omega)
  simp only [CreateCurrentWeather, h48, Option.bind_eq_bind, Option.bind_eq_none]
  intros
  contradiction

theorem CreateForecast_loop_of_short (data : List Byte) (n : Nat) :
    ∀ (i : Nat) (days : Days), data.length < 11 + 5 * (i + n) → 0 < n →
      CreateForecast.loop data n i days = none := by
  induction n with
  | zero => intro i days _ h; omega
  | succ n ih =>
    intro i days hlen _
    by_cases hs : data.length < 16 + 5 * i
    · have h15 : readByte data (15 + i * 5) = none := readByte_of_le data _ (by omega)
      simp only [CreateForecast.loop, h15, Option.bind_eq_bind, Option.bind_eq_none]
      intros
      contradiction
    · have hn : 0 < n := by omega
      simp only [CreateForecast.loop, Option.bind_eq_bind, Option.bind_eq_none]
      intros
      exact ih _ _ (by omega) hn

theorem CreateForecast_of_short (uninit : Days) (data : List Byte)
    (h : data.length < 11 ∨ data.length < 11 + 5 * min MaxNbForecastDays (byteAt data 10).val) :
    CreateForecast uninit data = none := by
  by_cases h11 : data.length < 11
  · have h10 : readByte data 10 = none := readByte_of_le data _ (by omega)
    simp only [CreateForecast, h10, Option.bind_eq_bind, Option.bind_eq_none]
    intros
    contradiction
  · have hl : data.length < 11 + 5 * min MaxNbForecastDays (byteAt data 10).val := by omega
    have hpos : 0 < min MaxNbForecastDays (byteAt data 10).val := by omega
    simp only [CreateForecast, readByte_of_lt data 10 (by omega), Option.bind_eq_bind,
      Option.bind_eq_none, Option.some_bind]
    intro ts _ days hd
    rw [CreateForecast_loop_of_short data _ 0 uninit (by simpa using hl) hpos] at hd
    contradiction

/-- The buffers on which `OnCommand` stays in bounds are exactly those that are as
long as their header announces. -/
theorem OnCommand_in_bounds_iff (self : SimpleWeatherService) (uninit : Days)
    (data : List Byte) (h2 : 2 ≤ data.length) :
    SimpleWeatherService.OnCommand self uninit data ≠ none ↔
      ((byteAt data 0 = 0 ∧ byteAt data 1 = 0 → 49 ≤ data.length) ∧
       (byteAt data 0 = 1 ∧ byteAt data 1 = 0 →
          11 ≤ data.length ∧
            11 + 5 * min MaxNbForecastDays (byteAt data 10).val ≤ data.length)) := by
  have e10 : ¬ ((1 : Byte) = 0) := by decide
  rw [OnCommand_of_header self uninit data h2]
  by_cases c0 : byteAt data 0 = 0 ∧ byteAt data 1 = 0
  · have c1 : ¬ (byteAt data 0 = 1 ∧ byteAt data 1 = 0) := by
      rw [c0.1]; exact fun hc => e10 hc.1.symm
    rw [if_pos c0]
    by_cases hl : 49 ≤ data.length
    · rw [CreateCurrentWeather_of_le data hl]
      simp [c0, c1, hl]
    · rw [CreateCurrentWeather_of_short data (by omega)]
      simp [c0, hl]
  · rw [if_neg c0]
    by_cases c1 : byteAt data 0 = 1 ∧ byteAt data 1 = 0
    · rw [if_pos c1]
      by_cases hl : 11 ≤ data.length ∧
          11 + 5 * min MaxNbForecastDays (byteAt data 10).val ≤ data.length
      · rw [CreateForecast_of_le uninit data hl.1 hl.2]
        simp [c0, c1, hl]
      · rw [CreateForecast_of_short uninit data (by omega)]
        simp only [Option.none_bind, ne_eq, not_true_eq_false, false_iff, not_and]
        intro _ hc
        exact hl (hc c1)
    · rw [if_neg c1]
      simp [c0, c1]

/-! ## Freshness, terminated strings, icons -/

theorem checkedInt64_of_fits (x : Int) (h : -9223372036854775808 ≤ x ∧ x < 9223372036854775808) :
    checkedInt64 x = some x := by
  have h' : -(2 ^ 63) ≤ x ∧ x < 2 ^ 63 := by norm_num; exact h
  simp only [checkedInt64, if_pos h']

theorem wrapInt64_of_fits (T : Nat) (h : T < 9223372036854775808) : wrapInt64 (T : Int) = (T : Int) := by
  simp only [wrapInt64]
  norm_num
  omega

theorem isFresh_of_fits (clk : DateTime) (T : Nat) (hp : 0 < clk.ticksPerSecond)
    (hT : T * clk.ticksPerSecond < 9223372036854775808)
    (hnow : 0 ≤ clk.sinceEpoch ∧ clk.sinceEpoch < 9223372036854775808)
    (hlim : 86400 * clk.ticksPerSecond < 9223372036854775808) :
    isFresh clk T = some (decide
      (clk.sinceEpoch - ((T * clk.ticksPerSecond : Nat) : Int)
        < ((86400 * clk.ticksPerSecond : Nat) : Int))) := by
  have hle : T ≤ T * clk.ticksPerSecond := Nat.le_mul_of_pos_right T hp
  have hw : wrapInt64 (T : Int) = (T : Int) := wrapInt64_of_fits T (by omega)
  have hm : (T : Int) * (clk.ticksPerSecond : Int) = ((T * clk.ticksPerSecond : Nat) : Int) := by
    push_cast; rfl
  have hl : (24 : Int) * 3600 * (clk.ticksPerSecond : Int)
      = ((86400 * clk.ticksPerSecond : Nat) : Int) := by
    push_cast; norm_num
  have c1 := checkedInt64_of_fits ((T * clk.ticksPerSecond : Nat) : Int) (by omega)
  have c2 := checkedInt64_of_fits (clk.sinceEpoch - ((T * clk.ticksPerSecond : Nat) : Int)) (by omega)
  have c3 := checkedInt64_of_fits ((86400 * clk.ticksPerSecond : Nat) : Int) (by omega)
  unfold isFresh
  simp only [hw, hm, hl, c1, c2, c3, Option.bind_eq_bind, Option.some_bind, Option.pure_def]

theorem cString_append_zero_length (l : List Byte) :
    (cString (l ++ [0])).length ≤ l.length := by
  induction l with
  | nil => simp [cString]
  | cons a l ih =>
    by_cases ha : a = 0
    · simp [cString, ha]
    · have : cString (a :: l ++ [0]) = a :: cString (l ++ [0]) := by
        simp [cString, ha, List.takeWhile_cons]
      rw [this]
      simp only [List.length_cons]
      omega

theorem iconBuffer_decodes (b : Byte) :
    (CreateCurrentWeather (iconBuffer b)).map (fun cw => cw.iconId) = some b := by
  rw [CreateCurrentWeather_of_le (iconBuffer b) (by simp [iconBuffer])]
  rfl

/-! ## Prefixes of buffers -/

theorem byteAt_of_take_eq (d1 d2 : List Byte) (n i : Nat) (h : d2.take n = d1.take n)
    (hi : i < n) : byteAt d2 i = byteAt d1 i := by
  have e : ∀ d : List Byte, byteAt (d.take n) i = byteAt d i := by
    intro d
    simp only [byteAt, List.getD, List.get?_eq_getElem?, List.getElem?_take_of_lt hi]
  rw [← e d2, ← e d1, h]

theorem length_of_take_eq (d1 d2 : List Byte) (n : Nat) (h : d2.take n = d1.take n)
    (hn : n ≤ d1.length) : n ≤ d2.length := by
  have := congrArg List.length h
  simp only [List.length_take] at this
  omega

theorem dayAt_of_take_eq (d1 d2 : List Byte) (n i : Nat) (h : d2.take n = d1.take n)
    (hi : 16 + 5 * i ≤ n) : dayAt d2 i = dayAt d1 i := by
  simp only [dayAt, byteAt_of_take_eq d1 d2 n (11 + i * 5) h (by omega),
    byteAt_of_take_eq d1 d2 n (11 + i * 5 + 1) h (by omega),
    byteAt_of_take_eq d1 d2 n (13 + i * 5) h (by omega),
    byteAt_of_take_eq d1 d2 n (13 + i * 5 + 1) h (by omega),
    byteAt_of_take_eq d1 d2 n (15 + i * 5) h (by omega)]

/-! ## The comparison operators -/

theorem cString_cons_zero (l : List Byte) : cString (0 :: l) = [] := by
  simp [cString]

theorem cString_cons_of_ne (a : Byte) (l : List Byte) (h : a ≠ 0) :
    cString (a :: l) = a :: cString l := by
  simp [cString, h, List.takeWhile_cons]

theorem strcmp_eq_zero_iff (a : List Byte) :
    ∀ b : List Byte, (0 : Byte) ∈ a → (0 : Byte) ∈ b →
      ∃ c, strcmp a b = some c ∧ (c = 0 ↔ cString a = cString b) := by
  induction a with
  | nil => intro b ha; simp at ha
  | cons x as ih =>
    intro b ha hb
    cases b with
    | nil => simp at hb
    | cons y bs =>
      by_cases hxy : x = y
      · subst hxy
        by_cases hx : x = 0
        · subst hx
          exact ⟨0, by simp [strcmp], by simp [cString_cons_zero]⟩
        · have ha' : (0 : Byte) ∈ as := by
            rcases List.mem_cons.mp ha with h | h
            · exact absurd h.symm hx
            · exact h
          have hb' : (0 : Byte) ∈ bs := by
            rcases List.mem_cons.mp hb with h | h
            · exact absurd h.symm hx
            · exact h
          obtain ⟨c, hc, hiff⟩ := ih bs ha' hb'
          refine ⟨c, by simp [strcmp, hx, hc], ?_⟩
          rw [cString_cons_of_ne x as hx, cString_cons_of_ne x bs hx, hiff]
          simp
      · refine ⟨if x < y then -1 else 1, by simp [strcmp, hxy], ?_⟩
        have hne : cString (x :: as) ≠ cString (y :: bs) := by
          by_cases hx : x = 0
          · subst hx
            have hy : y ≠ 0 := fun h => hxy h.symm
            rw [cString_cons_zero, cString_cons_of_ne y bs hy]
            simp
          · by_cases hy : y = 0
            · subst hy
              rw [cString_cons_zero, cString_cons_of_ne x as hx]
              simp
            · rw [cString_cons_of_ne x as hx, cString_cons_of_ne y bs hy]
              intro h
              exact hxy (List.cons.inj h).1
        constructor
        · intro h
          split at h <;> omega
        · intro h
          exact absurd h hne

theorem CurrentWeather_operatorEq_spec (a b : CurrentWeather)
    (ha : (0 : Byte) ∈ a.location) (hb : (0 : Byte) ∈ b.location) :
    ∃ r, a.operatorEq b = some r ∧
      (r = true ↔ a.iconId = b.iconId ∧ a.temperature = b.temperature ∧
        a.timestamp = b.timestamp ∧ a.maxTemperature = b.maxTemperature ∧
        a.minTemperature = b.maxTemperature ∧ cString a.location = cString b.location) := by
  obtain ⟨c, hc, hiff⟩ := strcmp_eq_zero_iff a.location b.location ha hb
  by_cases h : a.iconId = b.iconId ∧ a.temperature = b.temperature ∧
      a.timestamp = b.timestamp ∧ a.maxTemperature = b.maxTemperature ∧
      a.minTemperature = b.maxTemperature
  · refine ⟨decide (c = 0), ?_, ?_⟩
    · simp only [CurrentWeather.operatorEq, if_pos h, hc, Option.bind_eq_bind, Option.some_bind,
        Option.pure_def]
    · rw [decide_eq_true_eq, hiff]
      constructor
      · intro hs
        exact ⟨h.1, h.2.1, h.2.2.1, h.2.2.2.1, h.2.2.2.2, hs⟩
      · intro hs
        exact hs.2.2.2.2.2
  · refine ⟨false, ?_, ?_⟩
    · simp only [CurrentWeather.operatorEq, if_neg h, Option.pure_def]
    · constructor
      · intro hf; cases hf
      · intro hs
        exact absurd ⟨hs.1, hs.2.1, hs.2.2.1, hs.2.2.2.1, hs.2.2.2.2.1⟩ h

theorem Day_operatorEq_spec (a b : Day) :
    a.operatorEq b = true ↔ a.iconId = b.iconId ∧ a.maxTemperature = b.maxTemperature ∧
      a.minTemperature = b.maxTemperature := by
  simp only [Day.operatorEq, Bool.and_eq_true, decide_eq_true_eq, and_assoc]

theorem readDay_of_lt (days : Days) (i : Nat) (h : i < MaxNbForecastDays) :
    readDay days i = some (days ⟨i, h⟩) := by
  simp only [readDay, dif_pos h]

theorem Forecast_operatorEq_loop_spec (a b : Forecast) (n : Nat) :
    ∀ i, i + n ≤ MaxNbForecastDays →
      ∃ r, Forecast.operatorEq.loop a b n i = some r ∧
        (r = true ↔ ∀ j : Fin MaxNbForecastDays, i ≤ j.val → j.val < i + n →
          Day.operatorEq (a.days j) (b.days j) = true) := by
  induction n with
  | zero =>
    intro i _
    refine ⟨true, rfl, ?_⟩
    simp only [true_iff]
    intro j h1 h2
    omega
  | succ n ih =>
    intro i hi
    have hlt : i < MaxNbForecastDays := by omega
    obtain ⟨r, hr, hiff⟩ := ih (i + 1) (by omega)
    by_cases hd : Day.operatorEq (a.days ⟨i, hlt⟩) (b.days ⟨i, hlt⟩) = true
    · refine ⟨r, ?_, ?_⟩
      · simp only [Forecast.operatorEq.loop, readDay_of_lt _ i hlt, Option.bind_eq_bind,
          Option.some_bind, hd, Bool.not_true, Bool.false_eq_true, if_false, hr]
      · rw [hiff]
        constructor
        · intro h j h1 h2
          by_cases hj : j.val = i
          · have : j = ⟨i, hlt⟩ := Fin.ext hj
            rw [this]; exact hd
          · exact h j (by omega) (by omega)
        · intro h j h1 h2
          exact h j (by omega) (by omega)
    · refine ⟨false, ?_, ?_⟩
      · have hd' : Day.operatorEq (a.days ⟨i, hlt⟩) (b.days ⟨i, hlt⟩) = false := by
          simpa using hd
        simp only [Forecast.operatorEq.loop, readDay_of_lt _ i hlt, Option.bind_eq_bind,
          Option.some_bind, hd', Bool.not_false, if_true, Option.pure_def]
      · constructor
        · intro hf; cases hf
        · intro h
          exact absurd (h ⟨i, hlt⟩ (Nat.le_refl _) (by simp)) hd

theorem Forecast_operatorEq_spec (a b : Forecast) (ha : a.nbDays ≤ MaxNbForecastDays) :
    ∃ r, a.operatorEq b = some r ∧
      (r = true ↔ (∀ j : Fin MaxNbForecastDays, j.val < a.nbDays →
          Day.operatorEq (a.days j) (b.days j) = true) ∧
        a.timestamp = b.timestamp ∧ a.nbDays = b.nbDays) := by
  obtain ⟨r, hr, hiff⟩ := Forecast_operatorEq_loop_spec a b a.nbDays 0 (by omega)
  have hiff' : r = true ↔ ∀ j : Fin MaxNbForecastDays, j.val < a.nbDays →
      Day.operatorEq (a.days j) (b.days j) = true := by
    rw [hiff]
    constructor
    · intro h j hj
      exact h j (Nat.zero_le _) (by omega)
    · intro h j _ hj
      exact h j (by omega)
  cases r with
  | false =>
    refine ⟨false, ?_, ?_⟩
    · simp only [Forecast.operatorEq, hr, Option.bind_eq_bind, Option.some_bind, Bool.not_false,
        if_true, Option.pure_def]
    · constructor
      · intro hf; cases hf
      · intro h
        exact hiff'.mpr h.1
  | true =>
    refine ⟨decide (a.timestamp = b.timestamp) && decide (a.nbDays = b.nbDays), ?_, ?_⟩
    · simp only [Forecast.operatorEq, hr, Option.bind_eq_bind, Option.some_bind, Bool.not_true,
        Bool.false_eq_true, if_false, Option.pure_def]
    · simp only [Bool.and_eq_true, decide_eq_true_eq]
      constructor
      · intro h
        exact ⟨hiff'.mp rfl, h⟩
      · intro h
        exact h.2

theorem Forecast_operatorEq_true (a b : Forecast) (h : a.operatorEq b = some true) :
    a.nbDays = b.nbDays ∧ a.timestamp = b.timestamp := by
  simp only [Forecast.operatorEq, Option.bind_eq_bind, Option.bind_eq_some] at h
  obtain ⟨c, _, hc⟩ := h
  cases c with
  | false => simp at hc
  | true =>
    simp only [Bool.not_true, Bool.false_eq_true, if_false, Option.pure_def, Option.some.injEq,
      Bool.and_eq_true, decide_eq_true_eq] at hc
    exact ⟨hc.2, hc.1⟩

theorem Forecast_operatorEq_congr (a a2 b b2 : Forecast) (ha : a.nbDays ≤ MaxNbForecastDays)
    (hta : a2.timestamp = a.timestamp) (hna : a2.nbDays = a.nbDays)
    (hda : ∀ j : Fin MaxNbForecastDays, j.val < a.nbDays → a2.days j = a.days j)
    (htb : b2.timestamp = b.timestamp) (hnb : b2.nbDays = b.nbDays)
    (hdb : ∀ j : Fin MaxNbForecastDays, j.val < b.nbDays → b2.days j = b.days j) :
    a2.operatorEq b2 = a.operatorEq b := by
  obtain ⟨r, hr, hiff⟩ := Forecast_operatorEq_spec a b ha
  obtain ⟨r2, hr2, hiff2⟩ := Forecast_operatorEq_spec a2 b2 (by rw [hna]; exact ha)
  rw [hr, hr2]
  congr 1
  rw [Bool.eq_iff_iff, hiff, hiff2, hta, hna, htb, hnb]
  constructor
  · rintro ⟨h1, h2, h3⟩
    refine ⟨?_, h2, h3⟩
    intro j hj
    have := h1 j hj
    rwa [hda j hj, hdb j (by omega)] at this
  · rintro ⟨h1, h2, h3⟩
    refine ⟨?_, h2, h3⟩
    intro j hj
    rw [hda j hj, hdb j (by omega)]
    exact h1 j hj

/-! ## Claims -/

/-- C1: a buffer of at least two bytes whose kind byte is neither 0 nor 1, or whose
kind byte is 0 or 1 and whose version byte is not 0, makes `OnCommand` return 0 with
the store it was given: the current-weather member and the forecast member are both
what they were, absent or present. -/
theorem OnCommand_unrecognized_leaves_store (self : SimpleWeatherService) (uninit : Days)
    (kind version : Byte) (rest : List Byte)
    (h : (kind ≠ 0 ∧ kind ≠ 1) ∨ ((kind = 0 ∨ kind = 1) ∧ version ≠ 0)) :
    SimpleWeatherService.OnCommand self uninit (kind :: version :: rest) = some (0, self) := by
  rw [OnCommand_cons]
  rcases h with ⟨h0, h1⟩ | ⟨_, hv⟩
  · simp only [h0, h1, false_and, if_false]
  · simp only [hv, and_false, if_false]

/-- Witness of C1: kind byte 7, version byte 3, on a store that holds a record. -/
theorem OnCommand_unrecognized_leaves_store_witness :
    (((7 : Byte) ≠ 0 ∧ (7 : Byte) ≠ 1) ∨ (((7 : Byte) = 0 ∨ (7 : Byte) = 1) ∧ (3 : Byte) ≠ 0)) ∧
      SimpleWeatherService.OnCommand ⟨some parisWeather, none⟩ zeroDays [7, 3, 9] =
        some (0, ⟨some parisWeather, none⟩) :=
  ⟨by decide, OnCommand_unrecognized_leaves_store _ _ 7 3 [9] (by decide)⟩

/-- C2, counterexample: the two-byte buffers `[0, 0]` and `[1, 0]` are a version-0
CurrentWeather header and a version-0 Forecast header without payload. `OnCommand`
decodes them all the same, the first read past the header is at index 2, which is
the length of the buffer, and the call ends in an out-of-bounds read. -/
theorem OnCommand_header_only_reads_out_of_bounds :
    ([0, 0] : List Byte).length = 2 ∧ readByte [0, 0] 2 = none ∧
      SimpleWeatherService.OnCommand emptyStore zeroDays [0, 0] = none ∧
      SimpleWeatherService.OnCommand emptyStore zeroDays [1, 0] = none :=
  ⟨rfl, rfl, rfl, rfl⟩

/-- C2, amended: for a buffer of at least two bytes that is as long as its header
announces (49 bytes for kind 0 and version 0; 11 bytes and five more for each of the
`min(count, MaxNbForecastDays)` days for kind 1 and version 0; nothing more
otherwise), `OnCommand` reads every byte in bounds (its result is not `none`),
returns 0, and ends with the store untouched, or with the decoded current weather
stored (its location holding 33 bytes), or with the decoded forecast stored (its day
count at most `MaxNbForecastDays`). -/
theorem OnCommand_in_bounds_of_long_enough (self : SimpleWeatherService) (uninit : Days)
    (data : List Byte) (h2 : 2 ≤ data.length)
    (hcw : byteAt data 0 = 0 → byteAt data 1 = 0 → 49 ≤ data.length)
    (hfc : byteAt data 0 = 1 → byteAt data 1 = 0 →
      11 ≤ data.length ∧ 11 + 5 * min MaxNbForecastDays (byteAt data 10).val ≤ data.length) :
    SimpleWeatherService.OnCommand self uninit data = some (0, self) ∨
    (∃ cw, CreateCurrentWeather data = some cw ∧ cw.location.length = 33 ∧
      SimpleWeatherService.OnCommand self uninit data =
        some (0, { self with currentWeather := some cw })) ∨
    (∃ fc, CreateForecast uninit data = some fc ∧ fc.nbDays ≤ MaxNbForecastDays ∧
      SimpleWeatherService.OnCommand self uninit data =
        some (0, { self with forecast := some fc })) := by
  by_cases c0 : byteAt data 0 = 0 ∧ byteAt data 1 = 0
  · have hv : ValidCurrentWeatherBuffer data := ⟨c0.1, c0.2, hcw c0.1 c0.2⟩
    obtain ⟨cw, hcw', hon⟩ := OnCommand_of_validCurrentWeather self uninit data hv
    refine Or.inr (Or.inl ⟨cw, hcw', ?_, hon⟩)
    rw [CreateCurrentWeather_of_le data hv.2.2] at hcw'
    cases hcw'
    have := hv.2.2
    simp only [List.length_append, List.length_take, List.length_drop, List.length_singleton]
    omega
  · by_cases c1 : byteAt data 0 = 1 ∧ byteAt data 1 = 0
    · have hl := hfc c1.1 c1.2
      have hv : ValidForecastBuffer data := ⟨c1.1, c1.2, hl.1, hl.2⟩
      obtain ⟨fc, hfc', hon⟩ := OnCommand_of_validForecast self uninit data hv
      refine Or.inr (Or.inr ⟨fc, hfc', ?_, hon⟩)
      rw [CreateForecast_of_le uninit data hl.1 hl.2] at hfc'
      cases hfc'
      exact min_le_left _ _
    · left
      rw [OnCommand_of_header self uninit data h2, if_neg c0, if_neg c1]

/-- Witness of the amended C2 on the buffer of the end-to-end scenario. -/
theorem OnCommand_in_bounds_of_long_enough_witness :
    2 ≤ parisBuffer.length ∧
    (byteAt parisBuffer 0 = 0 → byteAt parisBuffer 1 = 0 → 49 ≤ parisBuffer.length) ∧
    (byteAt parisBuffer 0 = 1 → byteAt parisBuffer 1 = 0 →
      11 ≤ parisBuffer.length ∧
        11 + 5 * min MaxNbForecastDays (byteAt parisBuffer 10).val ≤ parisBuffer.length) ∧
    (SimpleWeatherService.OnCommand emptyStore zeroDays parisBuffer = some (0, emptyStore) ∨
    (∃ cw, CreateCurrentWeather parisBuffer = some cw ∧ cw.location.length = 33 ∧
      SimpleWeatherService.OnCommand emptyStore zeroDays parisBuffer =
        some (0, { emptyStore with currentWeather := some cw })) ∨
    (∃ fc, CreateForecast zeroDays parisBuffer = some fc ∧ fc.nbDays ≤ MaxNbForecastDays ∧
      SimpleWeatherService.OnCommand emptyStore zeroDays parisBuffer =
        some (0, { emptyStore with forecast := some fc }))) :=
  ⟨by decide, by decide, by decide,
    OnCommand_in_bounds_of_long_enough emptyStore zeroDays parisBuffer (by decide) (by decide)
      (by decide)⟩

/-- C3, the code at the failing input: the timestamp bytes `00 00 00 80 00 00 00 00`
are the little-endian encoding of 2147483648, and both decoders produce
18446744071562067968 (0xFFFFFFFF80000000): the `int` sum of the first four terms is
negative and is sign-extended when it is widened to `uint64_t`. -/
theorem ToUInt64_sign_extends_fourth_byte :
    ValidCurrentWeatherBuffer year2038Buffer ∧
      specUInt64LE year2038Buffer 2 = 2147483648 ∧
      (CreateCurrentWeather year2038Buffer).map (fun cw => cw.timestamp)
        = some 18446744071562067968 ∧
      ValidForecastBuffer year2038Forecast ∧
      specUInt64LE year2038Forecast 2 = 2147483648 ∧
      (CreateForecast zeroDays year2038Forecast).map (fun fc => fc.timestamp)
        = some 18446744071562067968 :=
  ⟨by decide, by decide, by decide, by decide, by decide, by decide⟩

/-- C4: for a valid CurrentWeather buffer the decoded `temperature`,
`minTemperature` and `maxTemperature` are the signed 16-bit little-endian readings of
the byte pairs at offsets 10, 12 and 14; the bytes `FF FF` decode to -1 and the bytes
`00 80` to -32768. -/
theorem CreateCurrentWeather_temperatures_int16LE (data : List Byte)
    (h : ValidCurrentWeatherBuffer data) :
    (∃ cw, CreateCurrentWeather data = some cw ∧
      cw.temperature = specInt16LE (byteAt data 10) (byteAt data 11) ∧
      cw.minTemperature = specInt16LE (byteAt data 12) (byteAt data 13) ∧
      cw.maxTemperature = specInt16LE (byteAt data 14) (byteAt data 15)) ∧
    ToInt16 [0xFF, 0xFF] 0 = some (-1) ∧ ToInt16 [0x00, 0x80] 0 = some (-32768) := by
  refine ⟨⟨_, CreateCurrentWeather_of_le data h.2.2, ?_, ?_, ?_⟩, by decide, by decide⟩ <;>
    exact ToInt16_combine_eq _ _

/-- Witness of C4 on the buffer of the end-to-end scenario. -/
theorem CreateCurrentWeather_temperatures_int16LE_witness :
    ValidCurrentWeatherBuffer parisBuffer ∧
    ((∃ cw, CreateCurrentWeather parisBuffer = some cw ∧
      cw.temperature = specInt16LE (byteAt parisBuffer 10) (byteAt parisBuffer 11) ∧
      cw.minTemperature = specInt16LE (byteAt parisBuffer 12) (byteAt parisBuffer 13) ∧
      cw.maxTemperature = specInt16LE (byteAt parisBuffer 14) (byteAt parisBuffer 15)) ∧
    ToInt16 [0xFF, 0xFF] 0 = some (-1) ∧ ToInt16 [0x00, 0x80] 0 = some (-32768)) :=
  ⟨by decide, CreateCurrentWeather_temperatures_int16LE parisBuffer (by decide)⟩

/-- C5: for a valid Forecast buffer with day count `k` at offset 10 the decoder
succeeds, `OnCommand` stores its record, the record has
`nbDays = min k MaxNbForecastDays`, which lies between 0 and `MaxNbForecastDays`, and
every day below `nbDays` has the signed 16-bit little-endian readings of offsets
`11 + 5 i` and `13 + 5 i` as its minimum and maximum temperature. -/
theorem CreateForecast_nbDays_clamped (self : SimpleWeatherService) (uninit : Days)
    (data : List Byte) (h : ValidForecastBuffer data) :
    ∃ fc, CreateForecast uninit data = some fc ∧
      SimpleWeatherService.OnCommand self uninit data =
        some (0, { self with forecast := some fc }) ∧
      fc.nbDays = min (byteAt data 10).val MaxNbForecastDays ∧
      0 ≤ fc.nbDays ∧ fc.nbDays ≤ MaxNbForecastDays ∧
      ∀ i : Fin MaxNbForecastDays, i.val < fc.nbDays →
        (fc.days i).minTemperature =
          specInt16LE (byteAt data (11 + 5 * i.val)) (byteAt data (11 + 5 * i.val + 1)) ∧
        (fc.days i).maxTemperature =
          specInt16LE (byteAt data (13 + 5 * i.val)) (byteAt data (13 + 5 * i.val + 1)) := by
  obtain ⟨fc, hfc, hon⟩ := OnCommand_of_validForecast self uninit data h
  refine ⟨fc, hfc, hon, ?_⟩
  rw [CreateForecast_of_le uninit data h.2.2.1 h.2.2.2] at hfc
  cases hfc
  refine ⟨min_comm _ _, Nat.zero_le _, min_le_left _ _, ?_⟩
  intro i hi
  simp only at hi
  simp only [if_pos hi, dayAt, ToInt16_combine_eq, Nat.mul_comm 5 i.val, and_self]

/-- Witness of C5 on a buffer that declares 200 days. -/
theorem CreateForecast_nbDays_clamped_witness :
    ValidForecastBuffer oversizedForecast ∧
    ∃ fc, CreateForecast zeroDays oversizedForecast = some fc ∧
      SimpleWeatherService.OnCommand emptyStore zeroDays oversizedForecast =
        some (0, { emptyStore with forecast := some fc }) ∧
      fc.nbDays = min (byteAt oversizedForecast 10).val MaxNbForecastDays ∧
      0 ≤ fc.nbDays ∧ fc.nbDays ≤ MaxNbForecastDays ∧
      ∀ i : Fin MaxNbForecastDays, i.val < fc.nbDays →
        (fc.days i).minTemperature =
          specInt16LE (byteAt oversizedForecast (11 + 5 * i.val))
            (byteAt oversizedForecast (11 + 5 * i.val + 1)) ∧
        (fc.days i).maxTemperature =
          specInt16LE (byteAt oversizedForecast (13 + 5 * i.val))
            (byteAt oversizedForecast (13 + 5 * i.val + 1)) :=
  ⟨by decide, CreateForecast_nbDays_clamped emptyStore zeroDays oversizedForecast (by decide)⟩

/-- C6, counterexample: `farFutureBuffer` stores a current weather whose timestamp
18446744069414584320 is the little-endian value of its bytes. At the clock value
1700000000 seconds the difference `now - T` is negative, hence below 24 hours, and
yet `Current` returns empty, on a clock in seconds and on a clock in nanoseconds
alike; so does `GetForecast` for a forecast with that timestamp. The timestamp
becomes a negative number of seconds when it enters `std::chrono::seconds`. -/
theorem Current_rejects_timestamp_above_int64 :
    SimpleWeatherService.OnCommand emptyStore zeroDays farFutureBuffer
        = some (0, ⟨some farFutureWeather, none⟩) ∧
      specUInt64LE farFutureBuffer 2 = farFutureWeather.timestamp ∧
      (1700000000 : Int) - (farFutureWeather.timestamp : Int) < 24 * 3600 ∧
      SimpleWeatherService.Current ⟨some farFutureWeather, none⟩ ⟨1, 1700000000⟩ = some none ∧
      SimpleWeatherService.Current ⟨some farFutureWeather, none⟩
        ⟨1000000000, 1700000000000000000⟩ = some none ∧
      SimpleWeatherService.GetForecast ⟨none, some ⟨18446744069414584320, 0, zeroDays⟩⟩
        ⟨1000000000, 1700000000000000000⟩ = some none := by
  refine ⟨rfl, by decide, by decide, by decide, by decide, rfl⟩

/-- C6, amended: on a clock with a positive number of ticks per second whose current
value is a non-negative signed 64-bit tick count, and for a stored timestamp `T` whose
tick count `T * ticksPerSecond` fits a signed 64-bit integer, `Current` (resp.
`GetForecast`) returns exactly the stored record when `now - T` is below 24 hours,
a future timestamp included, and returns empty otherwise, so also at exactly 24
hours; it returns empty when no record of that kind is stored. -/
theorem Current_GetForecast_fresh_within_24h (self : SimpleWeatherService) (clk : DateTime)
    (hp : 0 < clk.ticksPerSecond)
    (hnow : 0 ≤ clk.sinceEpoch ∧ clk.sinceEpoch < 9223372036854775808)
    (hlim : 86400 * clk.ticksPerSecond < 9223372036854775808) :
    (self.currentWeather = none → self.Current clk = some none) ∧
    (∀ cw, self.currentWeather = some cw →
      cw.timestamp * clk.ticksPerSecond < 9223372036854775808 →
      self.Current clk = some
        (if clk.sinceEpoch - ((cw.timestamp * clk.ticksPerSecond : Nat) : Int)
            < ((86400 * clk.ticksPerSecond : Nat) : Int) then some cw else none)) ∧
    (self.forecast = none → self.GetForecast clk = some none) ∧
    (∀ fc, self.forecast = some fc →
      fc.timestamp * clk.ticksPerSecond < 9223372036854775808 →
      self.GetForecast clk = some
        (if clk.sinceEpoch - ((fc.timestamp * clk.ticksPerSecond : Nat) : Int)
            < ((86400 * clk.ticksPerSecond : Nat) : Int) then some fc else none)) := by
  refine ⟨?_, ?_, ?_, ?_⟩
  · intro h
    simp only [SimpleWeatherService.Current, h]
    rfl
  · intro cw h hT
    simp only [SimpleWeatherService.Current, h, isFresh_of_fits clk cw.timestamp hp hT hnow hlim,
      Option.bind_eq_bind, Option.some_bind, decide_eq_true_eq, Option.pure_def]
    split <;> rfl
  · intro h
    simp only [SimpleWeatherService.GetForecast, h]
    rfl
  · intro fc h hT
    simp only [SimpleWeatherService.GetForecast, h,
      isFresh_of_fits clk fc.timestamp hp hT hnow hlim,
      Option.bind_eq_bind, Option.some_bind, decide_eq_true_eq, Option.pure_def]
    split <;> rfl

/-- Witness of the amended C6: a nanosecond clock at exactly 24 hours after the
timestamp of the stored record. -/
theorem Current_GetForecast_fresh_within_24h_witness :
    (0 < 1000000000) ∧
    ((0 : Int) ≤ 1700086400000000000 ∧ (1700086400000000000 : Int) < 9223372036854775808) ∧
    (86400 * 1000000000 < 9223372036854775808) ∧
    parisWeather.timestamp * 1000000000 < 9223372036854775808 ∧
    SimpleWeatherService.Current ⟨some parisWeather, none⟩ ⟨1000000000, 1700086400000000000⟩
      = some none :=
  ⟨by decide, by decide, by decide, by decide,
    ((Current_GetForecast_fresh_within_24h ⟨some parisWeather, none⟩
      ⟨1000000000, 1700086400000000000⟩ (by decide) (by decide) (by decide)).2.1
        parisWeather rfl (by decide)).trans (by decide)⟩

/-- C7: a valid CurrentWeather buffer makes `OnCommand` store the decode of that
buffer, which the previous store does not enter, and keep the forecast; a valid
Forecast buffer makes it store the decoded forecast and keep the current weather.
A second `OnCommand` with the same buffer leaves the store as the first one left it:
identical for the current weather, and for the forecast identical in timestamp, day
count and every day below the day count (and identical altogether when the
uninitialised array content is the same). -/
theorem OnCommand_overwrites_and_is_idempotent (self : SimpleWeatherService)
    (uninit uninit2 : Days) (data : List Byte) :
    (ValidCurrentWeatherBuffer data →
      ∃ cw, CreateCurrentWeather data = some cw ∧
        SimpleWeatherService.OnCommand self uninit data = some (0, ⟨some cw, self.forecast⟩) ∧
        SimpleWeatherService.OnCommand ⟨some cw, self.forecast⟩ uninit2 data
          = some (0, ⟨some cw, self.forecast⟩)) ∧
    (ValidForecastBuffer data →
      ∃ fc fc2, CreateForecast uninit data = some fc ∧
        SimpleWeatherService.OnCommand self uninit data
          = some (0, ⟨self.currentWeather, some fc⟩) ∧
        SimpleWeatherService.OnCommand ⟨self.currentWeather, some fc⟩ uninit2 data
          = some (0, ⟨self.currentWeather, some fc2⟩) ∧
        fc2.timestamp = fc.timestamp ∧ fc2.nbDays = fc.nbDays ∧
        (∀ i : Fin MaxNbForecastDays, i.val < fc.nbDays → fc2.days i = fc.days i) ∧
        (uninit2 = uninit → fc2 = fc)) := by
  constructor
  · intro h
    obtain ⟨cw, hcw, hon⟩ := OnCommand_of_validCurrentWeather self uninit data h
    obtain ⟨cw2, hcw2, hon2⟩ :=
      OnCommand_of_validCurrentWeather ⟨some cw, self.forecast⟩ uninit2 data h
    have e : cw2 = cw := Option.some.inj (hcw2.symm.trans hcw)
    subst e
    exact ⟨cw2, hcw, hon, hon2⟩
  · intro h
    obtain ⟨fc, hfc, hon⟩ := OnCommand_of_validForecast self uninit data h
    obtain ⟨fc2, hfc2, hon2⟩ :=
      OnCommand_of_validForecast ⟨self.currentWeather, some fc⟩ uninit2 data h
    refine ⟨fc, fc2, hfc, hon, hon2, ?_⟩
    rw [CreateForecast_of_le uninit data h.2.2.1 h.2.2.2] at hfc
    rw [CreateForecast_of_le uninit2 data h.2.2.1 h.2.2.2] at hfc2
    cases hfc
    cases hfc2
    refine ⟨rfl, rfl, ?_, ?_⟩
    · intro i hi
      simp only at hi
      simp only [if_pos hi]
    · intro e
      rw [e]

/-- Witness of C7 on the scenario buffer and on a forecast that declares 200 days. -/
theorem OnCommand_overwrites_and_is_idempotent_witness :
    ValidCurrentWeatherBuffer parisBuffer ∧ ValidForecastBuffer oversizedForecast ∧
    (∃ cw, CreateCurrentWeather parisBuffer = some cw ∧
        SimpleWeatherService.OnCommand ⟨some farFutureWeather, none⟩ zeroDays parisBuffer
          = some (0, ⟨some cw, none⟩) ∧
        SimpleWeatherService.OnCommand ⟨some cw, none⟩ zeroDays parisBuffer
          = some (0, ⟨some cw, none⟩)) ∧
    (∃ fc fc2, CreateForecast zeroDays oversizedForecast = some fc ∧
        SimpleWeatherService.OnCommand emptyStore zeroDays oversizedForecast
          = some (0, ⟨none, some fc⟩) ∧
        SimpleWeatherService.OnCommand ⟨none, some fc⟩ zeroDays oversizedForecast
          = some (0, ⟨none, some fc2⟩) ∧
        fc2.timestamp = fc.timestamp ∧ fc2.nbDays = fc.nbDays ∧
        (∀ i : Fin MaxNbForecastDays, i.val < fc.nbDays → fc2.days i = fc.days i) ∧
        (zeroDays = zeroDays → fc2 = fc)) :=
  ⟨by decide, by decide,
    (OnCommand_overwrites_and_is_idempotent ⟨some farFutureWeather, none⟩ zeroDays zeroDays
      parisBuffer).1 (by decide),
    (OnCommand_overwrites_and_is_idempotent emptyStore zeroDays zeroDays
      oversizedForecast).2 (by decide)⟩

/-- C8: on the empty store the 49-byte scenario buffer stores the record with
timestamp 1700000000, temperatures 2750, 2000 and 3000, icon 1 and a location that
reads "Paris" as a terminated string; on a clock of `p` ticks per second (between a
seconds clock and a nanoseconds clock) `Current` returns that record 3600 seconds
after the timestamp and returns empty 90000 seconds after it. -/
theorem parisBuffer_end_to_end (uninit : Days) (p : Nat) (hp : 0 < p) (hp9 : p ≤ 1000000000) :
    SimpleWeatherService.OnCommand emptyStore uninit parisBuffer
        = some (0, ⟨some parisWeather, none⟩) ∧
      cString parisWeather.location = [0x50, 0x61, 0x72, 0x69, 0x73] ∧
      SimpleWeatherService.Current ⟨some parisWeather, none⟩
        ⟨p, ((1700000000 + 3600) * p : Nat)⟩ = some (some parisWeather) ∧
      SimpleWeatherService.Current ⟨some parisWeather, none⟩
        ⟨p, ((1700000000 + 90000) * p : Nat)⟩ = some none := by
  have hts : parisWeather.timestamp = 1700000000 := rfl
  have h1 := isFresh_of_fits ⟨p, ((1700000000 + 3600) * p : Nat)⟩ 1700000000 hp
    (by show 1700000000 * p < 9223372036854775808; omega)
    (by
      show (0 : Int) ≤ (((1700000000 + 3600) * p : Nat) : Int) ∧
        (((1700000000 + 3600) * p : Nat) : Int) < 9223372036854775808
      constructor <;> omega)
    (by show 86400 * p < 9223372036854775808; omega)
  have h2 := isFresh_of_fits ⟨p, ((1700000000 + 90000) * p : Nat)⟩ 1700000000 hp
    (by show 1700000000 * p < 9223372036854775808; omega)
    (by
      show (0 : Int) ≤ (((1700000000 + 90000) * p : Nat) : Int) ∧
        (((1700000000 + 90000) * p : Nat) : Int) < 9223372036854775808
      constructor <;> omega)
    (by show 86400 * p < 9223372036854775808; omega)
  have d1 : decide ((((1700000000 + 3600) * p : Nat) : Int) - ((1700000000 * p : Nat) : Int)
      < ((86400 * p : Nat) : Int)) = true := by
    simp only [decide_eq_true_eq]; omega
  have d2 : decide ((((1700000000 + 90000) * p : Nat) : Int) - ((1700000000 * p : Nat) : Int)
      < ((86400 * p : Nat) : Int)) = false := by
    simp only [decide_eq_false_iff_not]; omega
  dsimp only at h1 h2
  rw [d1] at h1
  rw [d2] at h2
  refine ⟨rfl, by decide, ?_, ?_⟩
  · simp only [SimpleWeatherService.Current, hts, h1, Option.bind_eq_bind, Option.some_bind,
      Option.pure_def, if_true]
  · simp only [SimpleWeatherService.Current, hts, h2, Option.bind_eq_bind, Option.some_bind,
      Option.pure_def, Bool.false_eq_true, if_false]

/-- Witness of C8 on a nanosecond clock. -/
theorem parisBuffer_end_to_end_witness :
    (0 < 1000000000) ∧ (1000000000 ≤ 1000000000) ∧
    (SimpleWeatherService.OnCommand emptyStore zeroDays parisBuffer
        = some (0, ⟨some parisWeather, none⟩) ∧
      cString parisWeather.location = [0x50, 0x61, 0x72, 0x69, 0x73] ∧
      SimpleWeatherService.Current ⟨some parisWeather, none⟩
        ⟨1000000000, ((1700000000 + 3600) * 1000000000 : Nat)⟩ = some (some parisWeather) ∧
      SimpleWeatherService.Current ⟨some parisWeather, none⟩
        ⟨1000000000, ((1700000000 + 90000) * 1000000000 : Nat)⟩ = some none) :=
  ⟨by decide, by decide, parisBuffer_end_to_end zeroDays 1000000000 (by decide) (by decide)⟩

/-- C9, counterexample: the icon bytes 9 and 200 of two valid CurrentWeather buffers
are decoded to the icons with codes 9 and 200. No single `Unknown` value can be the
decode of every byte outside the known set, whatever the known set is, as soon as
two byte values lie outside it: `Icons {b}` keeps the byte and maps nothing. -/
theorem iconId_out_of_set_is_not_Unknown :
    ValidCurrentWeatherBuffer (iconBuffer 9) ∧ ValidCurrentWeatherBuffer (iconBuffer 200) ∧
      (CreateCurrentWeather (iconBuffer 9)).map (fun cw => cw.iconId) = some 9 ∧
      (CreateCurrentWeather (iconBuffer 200)).map (fun cw => cw.iconId) = some 200 ∧
      ¬ ∃ (known : Finset Byte) (Unknown : Icons), known.card ≤ 254 ∧
        ∀ b : Byte, b ∉ known →
          (CreateCurrentWeather (iconBuffer b)).map (fun cw => cw.iconId) = some Unknown := by
  refine ⟨by decide, by decide, by decide, by decide, ?_⟩
  rintro ⟨known, u, hcard, hall⟩
  have hc : 1 < (knownᶜ).card := by
    rw [Finset.card_compl, Fintype.card_fin]
    omega
  obtain ⟨a, ha, b, hb, hab⟩ := Finset.one_lt_card.mp hc
  have h1 := hall a (Finset.mem_compl.mp ha)
  have h2 := hall b (Finset.mem_compl.mp hb)
  rw [iconBuffer_decodes] at h1 h2
  exact hab ((Option.some.inj h1).trans (Option.some.inj h2).symm)

/-- C9, amended: the decoded `iconId` of a valid CurrentWeather buffer is the icon
whose code is the byte at offset 48, and the `iconId` of every day below `nbDays` of a
valid Forecast buffer is the icon whose code is the byte at offset `15 + 5 i`, for
every value of that byte; the decoders succeed whatever the icon bytes are. -/
theorem iconId_is_raw_icon_byte (uninit : Days) (data : List Byte) :
    (ValidCurrentWeatherBuffer data →
      ∃ cw, CreateCurrentWeather data = some cw ∧ cw.iconId = byteAt data 48) ∧
    (ValidForecastBuffer data →
      ∃ fc, CreateForecast uninit data = some fc ∧
        ∀ i : Fin MaxNbForecastDays, i.val < fc.nbDays →
          (fc.days i).iconId = byteAt data (15 + 5 * i.val)) := by
  constructor
  · intro h
    exact ⟨_, CreateCurrentWeather_of_le data h.2.2, rfl⟩
  · intro h
    refine ⟨_, CreateForecast_of_le uninit data h.2.2.1 h.2.2.2, ?_⟩
    intro i hi
    simp only at hi
    simp only [if_pos hi, dayAt, Nat.mul_comm 5 i.val]

/-- Witness of the amended C9 with icon byte 200 and with the icon bytes of a
forecast that declares 200 days. -/
theorem iconId_is_raw_icon_byte_witness :
    ValidCurrentWeatherBuffer (iconBuffer 200) ∧ ValidForecastBuffer oversizedForecast ∧
    (∃ cw, CreateCurrentWeather (iconBuffer 200) = some cw ∧
      cw.iconId = byteAt (iconBuffer 200) 48) ∧
    (∃ fc, CreateForecast zeroDays oversizedForecast = some fc ∧
        ∀ i : Fin MaxNbForecastDays, i.val < fc.nbDays →
          (fc.days i).iconId = byteAt oversizedForecast (15 + 5 * i.val)) :=
  ⟨by decide, by decide,
    (iconId_is_raw_icon_byte zeroDays (iconBuffer 200)).1 (by decide),
    (iconId_is_raw_icon_byte zeroDays oversizedForecast).2 (by decide)⟩

/-- C10: the location decoded from a valid CurrentWeather buffer holds 33 bytes, its
bytes 0 to 31 are the buffer bytes 16 to 47 in order, its byte 32 is zero, so it
contains a terminator and its terminated string has at most 32 bytes. -/
theorem CreateCurrentWeather_location_terminated (data : List Byte)
    (h : ValidCurrentWeatherBuffer data) :
    ∃ cw, CreateCurrentWeather data = some cw ∧
      cw.location.length = 33 ∧
      (∀ i, i < 32 → cw.location[i]? = some (byteAt data (16 + i))) ∧
      cw.location[32]? = some 0 ∧
      (0 : Byte) ∈ cw.location ∧
      (cString cw.location).length ≤ 32 := by
  have hlen := h.2.2
  refine ⟨_, CreateCurrentWeather_of_le data hlen, ?_, ?_, ?_, ?_, ?_⟩
  · simp only [List.length_append, List.length_take, List.length_drop, List.length_singleton]
    omega
  · intro i hi
    have h1 : i < ((data.drop 16).take 32).length := by
      simp only [List.length_take, List.length_drop]; omega
    rw [List.getElem?_append_left h1, List.getElem?_take_of_lt hi, List.getElem?_drop]
    have h2 : 16 + i < data.length := by omega
    simp [byteAt, List.getD, List.getElem?_eq_getElem h2]
  · have h1 : ((data.drop 16).take 32).length = 32 := by
      simp only [List.length_take, List.length_drop]; omega
    rw [List.getElem?_append_right (by omega), h1]
    rfl
  · simp
  · have h1 : ((data.drop 16).take 32).length = 32 := by
      simp only [List.length_take, List.length_drop]; omega
    have := cString_append_zero_length ((data.drop 16).take 32)
    rw [h1] at this
    exact this

/-- Witness of C10 on a buffer whose 32 location bytes contain no zero. -/
theorem CreateCurrentWeather_location_terminated_witness :
    ValidCurrentWeatherBuffer unterminatedBuffer ∧
    (0 : Byte) ∉ (unterminatedBuffer.drop 16).take 32 ∧
    ∃ cw, CreateCurrentWeather unterminatedBuffer = some cw ∧
      cw.location.length = 33 ∧
      (∀ i, i < 32 → cw.location[i]? = some (byteAt unterminatedBuffer (16 + i))) ∧
      cw.location[32]? = some 0 ∧
      (0 : Byte) ∈ cw.location ∧
      (cString cw.location).length ≤ 32 :=
  ⟨by decide, by decide, CreateCurrentWeather_location_terminated unterminatedBuffer (by decide)⟩

/-- C11: for a version-0 Forecast buffer with day count `k` that holds at least
`11 + 5 * min k MaxNbForecastDays` bytes the decoder reads in bounds, and a second
buffer with the same leading bytes up to that offset decodes to the same timestamp,
the same `nbDays = min k MaxNbForecastDays` and the same days below `nbDays`; the
bytes from that offset on are not read. `CreateCurrentWeather` reads in bounds
exactly when the buffer holds at least 49 bytes, and its result is fixed by the first
49 bytes: the highest offset it reads is 48. -/
theorem decoders_read_only_declared_bytes (uninit1 uninit2 : Days) (d1 d2 : List Byte) :
    (ValidForecastBuffer d1 →
      d2.take (11 + 5 * min (byteAt d1 10).val MaxNbForecastDays)
        = d1.take (11 + 5 * min (byteAt d1 10).val MaxNbForecastDays) →
      ∃ fc1 fc2, CreateForecast uninit1 d1 = some fc1 ∧ CreateForecast uninit2 d2 = some fc2 ∧
        fc2.timestamp = fc1.timestamp ∧ fc2.nbDays = fc1.nbDays ∧
        fc1.nbDays = min (byteAt d1 10).val MaxNbForecastDays ∧
        ∀ i : Fin MaxNbForecastDays, i.val < fc1.nbDays → fc2.days i = fc1.days i) ∧
    ((CreateCurrentWeather d1 ≠ none ↔ 49 ≤ d1.length) ∧
      (49 ≤ d1.length → d2.take 49 = d1.take 49 →
        CreateCurrentWeather d2 = CreateCurrentWeather d1)) := by
  refine ⟨?_, ?_, ?_⟩
  · intro hv ht
    rw [min_comm] at ht
    have hl1 := hv.2.2.2
    have hl2 := length_of_take_eq d1 d2 _ ht hl1
    have hk : byteAt d2 10 = byteAt d1 10 := byteAt_of_take_eq d1 d2 _ 10 ht (by omega)
    have hl2' : 11 + 5 * min MaxNbForecastDays (byteAt d2 10).val ≤ d2.length := by
      rw [hk]; exact hl2
    refine ⟨_, _, CreateForecast_of_le uninit1 d1 hv.2.2.1 hl1,
      CreateForecast_of_le uninit2 d2 (by omega) hl2', ?_, ?_, ?_, ?_⟩
    · simp only [byteAt_of_take_eq d1 d2 _ 2 ht (show 2 < _ by omega),
        byteAt_of_take_eq d1 d2 _ 3 ht (show 3 < _ by omega),
        byteAt_of_take_eq d1 d2 _ 4 ht (show 4 < _ by omega),
        byteAt_of_take_eq d1 d2 _ 5 ht (show 5 < _ by omega),
        byteAt_of_take_eq d1 d2 _ 6 ht (show 6 < _ by omega),
        byteAt_of_take_eq d1 d2 _ 7 ht (show 7 < _ by omega),
        byteAt_of_take_eq d1 d2 _ 8 ht (show 8 < _ by omega),
        byteAt_of_take_eq d1 d2 _ 9 ht (show 9 < _ by omega)]
    · simp only [hk]
    · exact min_comm _ _
    · intro i hi
      simp only at hi
      have hi2 : i.val < min MaxNbForecastDays (byteAt d2 10).val := by rw [hk]; exact hi
      simp only [if_pos hi, if_pos hi2]
      exact dayAt_of_take_eq d1 d2 _ i.val ht (by omega)
  · constructor
    · intro h
      by_contra hc
      exact h (CreateCurrentWeather_of_short d1 (by omega))
    · intro h
      rw [CreateCurrentWeather_of_le d1 h]
      exact Option.some_ne_none _
  · intro h1 ht
    have h2 := length_of_take_eq d1 d2 49 ht h1
    have hdrop : (d2.drop 16).take 32 = (d1.drop 16).take 32 := by
      have e : ∀ d : List Byte, (d.drop 16).take 32 = ((d.take 49).drop 16).take 32 := by
        intro d
        simp [List.drop_take, List.take_take]
      rw [e d2, e d1, ht]
    rw [CreateCurrentWeather_of_le d1 h1, CreateCurrentWeather_of_le d2 h2, hdrop]
    simp only [byteAt_of_take_eq d1 d2 49 2 ht (by omega),
      byteAt_of_take_eq d1 d2 49 3 ht (by omega), byteAt_of_take_eq d1 d2 49 4 ht (by omega),
      byteAt_of_take_eq d1 d2 49 5 ht (by omega), byteAt_of_take_eq d1 d2 49 6 ht (by omega),
      byteAt_of_take_eq d1 d2 49 7 ht (by omega), byteAt_of_take_eq d1 d2 49 8 ht (by omega),
      byteAt_of_take_eq d1 d2 49 9 ht (by omega), byteAt_of_take_eq d1 d2 49 10 ht (by omega),
      byteAt_of_take_eq d1 d2 49 11 ht (by omega), byteAt_of_take_eq d1 d2 49 12 ht (by omega),
      byteAt_of_take_eq d1 d2 49 13 ht (by omega), byteAt_of_take_eq d1 d2 49 14 ht (by omega),
      byteAt_of_take_eq d1 d2 49 15 ht (by omega), byteAt_of_take_eq d1 d2 49 48 ht (by omega)]

/-- Witness of C11: a forecast that declares 200 days against the same bytes
followed by three more, and the scenario buffer against itself followed by one more
byte. -/
theorem decoders_read_only_declared_bytes_witness :
    ValidForecastBuffer oversizedForecast ∧
    (oversizedForecast ++ [9, 9, 9]).take
        (11 + 5 * min (byteAt oversizedForecast 10).val MaxNbForecastDays)
      = oversizedForecast.take
        (11 + 5 * min (byteAt oversizedForecast 10).val MaxNbForecastDays) ∧
    (∃ fc1 fc2, CreateForecast zeroDays oversizedForecast = some fc1 ∧
        CreateForecast zeroDays (oversizedForecast ++ [9, 9, 9]) = some fc2 ∧
        fc2.timestamp = fc1.timestamp ∧ fc2.nbDays = fc1.nbDays ∧
        fc1.nbDays = min (byteAt oversizedForecast 10).val MaxNbForecastDays ∧
        ∀ i : Fin MaxNbForecastDays, i.val < fc1.nbDays → fc2.days i = fc1.days i) ∧
    49 ≤ parisBuffer.length ∧ (parisBuffer ++ [7]).take 49 = parisBuffer.take 49 ∧
    CreateCurrentWeather (parisBuffer ++ [7]) = CreateCurrentWeather parisBuffer :=
  ⟨by decide, by decide,
    (decoders_read_only_declared_bytes zeroDays zeroDays oversizedForecast
      (oversizedForecast ++ [9, 9, 9])).1 (by decide) (by decide),
    by decide, by decide,
    (decoders_read_only_declared_bytes zeroDays zeroDays parisBuffer
      (parisBuffer ++ [7])).2.2 (by decide) (by decide)⟩

/-- C12, the code at the failing input: the record decoded from the scenario buffer
(minimum 2000, maximum 3000) does not compare equal to itself, nor does the day
(2000, 3000, icon 1); and a record whose minimum was changed to 3000 compares equal
to the original, as does the day (3000, 3000, icon 1) to the day (2000, 3000,
icon 1). Both operators compare `this->minTemperature` with `other.maxTemperature`. -/
theorem operatorEq_compares_min_with_max :
    CreateCurrentWeather parisBuffer = some parisWeather ∧
      CurrentWeather.operatorEq parisWeather parisWeather = some false ∧
      Day.operatorEq ⟨2000, 3000, 1⟩ ⟨2000, 3000, 1⟩ = false ∧
      CurrentWeather.operatorEq { parisWeather with minTemperature := 3000 } parisWeather
        = some true ∧
      Day.operatorEq ⟨3000, 3000, 1⟩ ⟨2000, 3000, 1⟩ = true := by
  refine ⟨by decide, by decide, by decide, by decide, by decide⟩

/-- C13: for forecast records `a` and `b`, `a` with a day count within the array,
`a == b` returns a result; it returns `true` only if the day counts are equal and
the timestamps are equal; and the result is the same for any two records that have
the timestamps, the day counts and the days below their own day count of `a` and
`b`. In particular, changing a day of `a` at an index from `a.nbDays` on, or a day of
`b` at an index from `b.nbDays` on, does not change the result. -/
theorem Forecast_operatorEq_ignores_days_beyond_nbDays (a b : Forecast)
    (ha : a.nbDays ≤ MaxNbForecastDays) :
    (a.operatorEq b = some true → a.nbDays = b.nbDays ∧ a.timestamp = b.timestamp) ∧
    (∃ r, a.operatorEq b = some r) ∧
    (∀ a2 b2 : Forecast,
      a2.timestamp = a.timestamp → a2.nbDays = a.nbDays →
      (∀ j : Fin MaxNbForecastDays, j.val < a.nbDays → a2.days j = a.days j) →
      b2.timestamp = b.timestamp → b2.nbDays = b.nbDays →
      (∀ j : Fin MaxNbForecastDays, j.val < b.nbDays → b2.days j = b.days j) →
      a2.operatorEq b2 = a.operatorEq b) ∧
    (∀ (j : Fin MaxNbForecastDays) (d : Day), a.nbDays ≤ j.val →
      Forecast.operatorEq ⟨a.timestamp, a.nbDays, Function.update a.days j d⟩ b
        = a.operatorEq b) ∧
    (∀ (j : Fin MaxNbForecastDays) (d : Day), b.nbDays ≤ j.val →
      a.operatorEq ⟨b.timestamp, b.nbDays, Function.update b.days j d⟩ = a.operatorEq b) := by
  refine ⟨Forecast_operatorEq_true a b, ?_, ?_, ?_, ?_⟩
  · obtain ⟨r, hr, _⟩ := Forecast_operatorEq_spec a b ha
    exact ⟨r, hr⟩
  · intro a2 b2 hta hna hda htb hnb hdb
    exact Forecast_operatorEq_congr a a2 b b2 ha hta hna hda htb hnb hdb
  · intro j d hj
    refine Forecast_operatorEq_congr a _ b b ha rfl rfl ?_ rfl rfl (fun _ _ => rfl)
    intro i hi
    have hne : i ≠ j := fun h => by rw [h] at hi; omega
    simp only [Function.update_noteq hne]
  · intro j d hj
    refine Forecast_operatorEq_congr a a b _ ha rfl rfl (fun _ _ => rfl) rfl rfl ?_
    intro i hi
    have hne : i ≠ j := fun h => by rw [h] at hi; omega
    simp only [Function.update_noteq hne]

/-- Witness of C13 on a two-day record compared with a one-day record. -/
theorem Forecast_operatorEq_ignores_days_beyond_nbDays_witness :
    twoDayForecast.nbDays ≤ MaxNbForecastDays ∧
    twoDayForecast.operatorEq oneDayForecast = some false ∧
    (∀ (j : Fin MaxNbForecastDays) (d : Day), oneDayForecast.nbDays ≤ j.val →
      twoDayForecast.operatorEq
          ⟨oneDayForecast.timestamp, oneDayForecast.nbDays,
            Function.update oneDayForecast.days j d⟩
        = twoDayForecast.operatorEq oneDayForecast) :=
  ⟨by decide, by decide,
    (Forecast_operatorEq_ignores_days_beyond_nbDays twoDayForecast oneDayForecast
      (by decide)).2.2.2.2⟩

end Pinetime.Controllers
